import Mathlib

namespace LlamaCppPy

/-!
Verification of the llama-cpp-py supervisor/client against its design
spec.  The definitions below are shallow embeddings of the Python source:
the token-stream post-processor of `llama_cpp_py/client/base.py` together
with the yield loop of `llama_cpp_py/client/sync.py`, the output relay of
`llama_cpp_py/server/base.py` and `llama_cpp_py/server/sync.py`, and the
readiness prober and process lifecycle of `llama_cpp_py/server/sync.py`.
-/

/-! ## Token-stream post-processor (`client/base.py`, `client/sync.py`) -/

/-- `LlamaBaseClient.opening_thinking_tags`. -/
def openingThinkingTags : List String := ["<think>", "&lt;think&gt;"]

/-- `LlamaBaseClient.closing_thinking_tags`. -/
def closingThinkingTags : List String := ["</think>", "&lt;/think&gt;"]

/-- `LlamaBaseClient.all_thinking_tags`. -/
def allThinkingTags : List String := openingThinkingTags ++ closingThinkingTags

/-- The mutable `state` dict threaded through `process_output_token`,
initialised in `stream` as `dict(response_text='', is_in_thinking=False)`. -/
structure TokenState where
  response_text : String
  is_in_thinking : Bool
  deriving Repr, DecidableEq

/-- `LlamaBaseClient.process_output_token`.  The first component is the value
the Python function returns (`none` for Python `None`, which the bare
`return` statements produce); the second is the updated state.  A Python
`None` placeholder is modelled as `""`: both are falsy under the `if token:`
test the code uses.  When the placeholder is falsy the opening-tag branch
falls through to the `if not state['is_in_thinking']` test with the flag
just set, hence returns `None`. -/
def processOutputToken (token : String) (state : TokenState)
    (show_thinking return_per_token : Bool)
    (out_token_in_thinking_mode : String) : Option String × TokenState :=
  if show_thinking && return_per_token then
    (some token, state)
  else if show_thinking && !return_per_token then
    let st := { state with response_text := state.response_text ++ token }
    (some st.response_text, st)
  else if token ∈ openingThinkingTags then
    let st := { state with is_in_thinking := true }
    if out_token_in_thinking_mode ≠ "" then
      (some out_token_in_thinking_mode, st)
    else
      (none, st)
  else if token ∈ closingThinkingTags then
    (none, { state with is_in_thinking := false })
  else if !state.is_in_thinking then
    if return_per_token then
      (some token, state)
    else
      let st := { state with response_text := state.response_text ++ token }
      (some st.response_text, st)
  else
    (none, state)

/-- The post-processing loop of `LlamaSyncClient.stream`, from a given state:
each raw token is fed through the token processor and yielded exactly when
the processed value is truthy (`if token: yield token`). -/
def streamEmittedFrom (st : TokenState) (show_thinking return_per_token : Bool)
    (ph : String) : List String → List String
  | [] => []
  | t :: ts =>
    let r := processOutputToken t st show_thinking return_per_token ph
    match r.1 with
    | some tok =>
      if tok ≠ "" then tok :: streamEmittedFrom r.2 show_thinking return_per_token ph ts
      else streamEmittedFrom r.2 show_thinking return_per_token ph ts
    | none => streamEmittedFrom r.2 show_thinking return_per_token ph ts

/-- The chunks yielded by `LlamaSyncClient.stream` for a given raw token
sequence, starting from the initial state the method builds. -/
def streamEmitted (tokens : List String) (show_thinking return_per_token : Bool)
    (ph : String) : List String :=
  streamEmittedFrom ⟨"", false⟩ show_thinking return_per_token ph tokens

/-- The post-processor state after `stream` has fed a token sequence through
`process_output_token`. -/
def streamFinalState (st : TokenState) (show_thinking return_per_token : Bool)
    (ph : String) : List String → TokenState
  | [] => st
  | t :: ts =>
    streamFinalState (processOutputToken t st show_thinking return_per_token ph).2
      show_thinking return_per_token ph ts

/-- Spec-side running totals: the i-th entry is the concatenation of the
first i tokens, continuing from accumulated text `acc`. -/
def runningConcatsFrom (acc : String) : List String → List String
  | [] => []
  | t :: ts => (acc ++ t) :: runningConcatsFrom (acc ++ t) ts

/-- Spec-side running totals of a token sequence: the i-th entry is the
concatenation of the first i tokens. -/
def runningConcats (tokens : List String) : List String :=
  runningConcatsFrom "" tokens

/-- Spec-side characterisation, for the thinking-hidden accumulate mode, of
the tokens that reach the accumulated text: exactly the tokens that are not
tag tokens and arrive while the in-thinking flag is down. -/
def keptTokens (inThinking : Bool) : List String → List String
  | [] => []
  | t :: ts =>
    if t ∈ openingThinkingTags then keptTokens true ts
    else if t ∈ closingThinkingTags then keptTokens false ts
    else if inThinking then keptTokens true ts
    else t :: keptTokens false ts

/-! ## Output relay (`server/base.py`, `server/sync.py`)

Bytes are modelled as `Nat` values below 256; `b'\r'` is 13 and `b'\n'`
is 10.  Python's strict `bytes.decode()` is modelled by an incremental
UTF-8 decoder returning `none` exactly where Python raises
`UnicodeDecodeError` (invalid leading byte, bad continuation byte,
overlong form, surrogate, out-of-range code point, or truncated
sequence). -/

/-- Decoder position: either at a sequence boundary, or inside a multi-byte
sequence with the partial code point, the number of continuation bytes still
expected, and the admissible range for the next byte (the first continuation
byte of a 3- or 4-byte sequence has a restricted range, ruling out overlong
forms, surrogates and code points above 0x10FFFF). -/
inductive Utf8Pos where
  | boundary : Utf8Pos
  | inside (acc need lo hi : Nat) : Utf8Pos
  deriving Repr, DecidableEq

/-- Strict UTF-8 decoding of a byte list, one byte at a time. -/
def utf8DecodeFrom : Utf8Pos → List Nat → Option (List Char)
  | .boundary, [] => some []
  | .inside _ _ _ _, [] => none
  | .boundary, b :: bs =>
    if b ≤ 0x7F then (utf8DecodeFrom .boundary bs).map (Char.ofNat b :: ·)
    else if 0xC2 ≤ b ∧ b ≤ 0xDF then utf8DecodeFrom (.inside (b - 0xC0) 1 0x80 0xBF) bs
    else if b = 0xE0 then utf8DecodeFrom (.inside 0 2 0xA0 0xBF) bs
    else if b = 0xED then utf8DecodeFrom (.inside 13 2 0x80 0x9F) bs
    else if 0xE1 ≤ b ∧ b ≤ 0xEF then utf8DecodeFrom (.inside (b - 0xE0) 2 0x80 0xBF) bs
    else if b = 0xF0 then utf8DecodeFrom (.inside 0 3 0x90 0xBF) bs
    else if 0xF1 ≤ b ∧ b ≤ 0xF3 then utf8DecodeFrom (.inside (b - 0xF0) 3 0x80 0xBF) bs
    else if b = 0xF4 then utf8DecodeFrom (.inside 4 3 0x80 0x8F) bs
    else none
  | .inside acc need lo hi, b :: bs =>
    if lo ≤ b ∧ b ≤ hi then
      let acc' := acc * 64 + (b - 0x80)
      if need = 1 then (utf8DecodeFrom .boundary bs).map (Char.ofNat acc' :: ·)
      else utf8DecodeFrom (.inside acc' (need - 1) 0x80 0xBF) bs
    else none

/-- Strict UTF-8 decoding of a byte list (`bytes.decode()`). -/
def utf8Decode (bs : List Nat) : Option (List Char) :=
  utf8DecodeFrom .boundary bs

/-- The characters removed by Python's `str.strip()` (ASCII whitespace; the
buffers of interest carry none of the rarer Unicode spaces). -/
def isPySpace (c : Char) : Bool :=
  c = ' ' || c = '\t' || c = '\n' || c = '\r' || c = '\x0b' || c = '\x0c'

/-- Python's `str.strip()` on a character list. -/
def pyStrip (cs : List Char) : List Char :=
  ((cs.dropWhile isPySpace).reverse.dropWhile isPySpace).reverse

/-- `bytes.decode().strip()` as a `String`, `none` when decoding fails. -/
def decodeStrip (bs : List Nat) : Option String :=
  (utf8Decode bs).map (fun cs => String.mk (pyStrip cs))

/-- The `state` dict of `log_output`, initialised as
`dict(buffer=b'', last_was_cr=False)`. -/
structure LogState where
  buffer : List Nat
  last_was_cr : Bool
  deriving Repr, DecidableEq

/-- One observable print of the relay: `.inplaceUpdate s` is
`print('\r' + s, end='', flush=True)` (an in-place, carriage-return
prefixed update with no trailing newline), `.newline` is a bare `print()`,
and `.line s` is `print(s)` (a normal line). -/
inductive LogEvent where
  | inplaceUpdate (text : String) : LogEvent
  | newline : LogEvent
  | line (text : String) : LogEvent
  deriving Repr, DecidableEq

/-- The `f'{log_prefix}: {line}' if log_prefix else f'{line}'` formatting. -/
def formatLine (logPre line : String) : String :=
  if logPre ≠ "" then logPre ++ ": " ++ line else line

/-- `LlamaBaseServer.process_log_output_chunk` for a single byte: the chunk
is appended to the buffer and, on `\r` or `\n`, `buffer[:-1]` (the previous
buffer) is decoded and stripped; a `UnicodeDecodeError` is swallowed by the
bare `except` clauses, after which the buffer is still reset to `b''`.
Returns the updated state and the prints performed. -/
def processLogOutputChunk (chunk : Nat) (state : LogState) (logPre : String) :
    LogState × List LogEvent :=
  if chunk = 13 then
    match decodeStrip state.buffer with
    | some line =>
      if line ≠ "" then
        ({ buffer := [], last_was_cr := true }, [.inplaceUpdate (formatLine logPre line)])
      else
        ({ buffer := [], last_was_cr := state.last_was_cr }, [])
    | none => ({ buffer := [], last_was_cr := state.last_was_cr }, [])
  else if chunk = 10 then
    match decodeStrip state.buffer with
    | some line =>
      let crEvents : List LogEvent := if state.last_was_cr then [.newline] else []
      let lineEvents : List LogEvent := if line ≠ "" then [.line (formatLine logPre line)] else []
      ({ buffer := [], last_was_cr := false }, crEvents ++ lineEvents)
    | none => ({ buffer := [], last_was_cr := state.last_was_cr }, [])
  else
    ({ buffer := state.buffer ++ [chunk], last_was_cr := state.last_was_cr }, [])

/-- The prints of `LlamaSyncServer.log_output` contributed by the read loop
alone (one byte per `stream.read(1)`), from a given state. -/
def logChunkEvents (st : LogState) (logPre : String) : List Nat → List LogEvent
  | [] => []
  | b :: bs =>
    let r := processLogOutputChunk b st logPre
    r.2 ++ logChunkEvents r.1 logPre bs

/-- The relay state after the read loop has consumed a byte list. -/
def logFinalState (st : LogState) (logPre : String) : List Nat → LogState
  | [] => st
  | b :: bs => logFinalState (processLogOutputChunk b st logPre).1 logPre bs

/-- `LlamaSyncServer.log_output` on a whole stream, from a given state: the
loop ends at the zero-length read, and a trailing in-place update is then
finalised by a bare `print()`. -/
def logOutputFrom (st : LogState) (logPre : String) : List Nat → List LogEvent
  | [] => if st.last_was_cr then [.newline] else []
  | b :: bs =>
    let r := processLogOutputChunk b st logPre
    r.2 ++ logOutputFrom r.1 logPre bs

/-- `LlamaSyncServer.log_output` on a whole stream, from the initial state
`dict(buffer=b'', last_was_cr=False)`. -/
def logOutput (bytes : List Nat) (logPre : String) : List LogEvent :=
  logOutputFrom ⟨[], false⟩ logPre bytes

/-! ## Readiness prober (`server/sync.py`, `wait_for_server_ready`)

Time is abstracted to `Nat` ticks of `time.monotonic()`.  Each loop
iteration is driven by one scripted `PollStep`: the value `process.poll()`
returns at the top of the iteration, the outcome of `requests.get`, and the
time the request consumes.  `time.sleep(1)` advances time by one tick.  A
script too short to decide the run yields `none` (the Python loop would
keep polling beyond the script). -/

/-- Outcome of one `requests.get(url, timeout=2)` call: an HTTP status
code, a `requests.RequestException` (caught by the loop), or any other
exception (which propagates out of `wait_for_server_ready`, modelled by a
numeric label). -/
inductive ProbeOutcome where
  | response (code : Nat) : ProbeOutcome
  | connError : ProbeOutcome
  | fatalExc (e : Nat) : ProbeOutcome
  deriving Repr, DecidableEq

/-- One scripted iteration of the polling loop. -/
structure PollStep where
  exitCode : Option Int
  probe : ProbeOutcome
  reqTime : Nat
  deriving Repr, DecidableEq

/-- The loop-local variables of `wait_for_server_ready`: the current
`time.monotonic()` value, `start_time`, and the `model_loading` flag. -/
structure WaitState where
  now : Nat
  startTime : Nat
  modelLoading : Bool
  deriving Repr, DecidableEq

/-- Observables of a completed `wait_for_server_ready` run: the returned
boolean, the final clock value (wall time), the number of HTTP requests
issued, and how many times the once-only transition
`'Model is loading (503), waiting...'` was logged. -/
structure WaitRun where
  ready : Bool
  finalNow : Nat
  requests : Nat
  loadingLogs : Nat
  deriving Repr, DecidableEq

/-- Adds the requests and loading-log prints of an enclosing iteration to
the observables of the rest of the run. -/
def bumpRun (req logs : Nat) : Except Nat WaitRun → Except Nat WaitRun
  | .ok run => .ok { run with requests := run.requests + req, loadingLogs := run.loadingLogs + logs }
  | .error e => .error e

/-- `LlamaSyncServer.wait_for_server_ready` from a given loop state:
`while time.monotonic() - start_time < timeout` re-reads the guard each
iteration; `process.poll()` is checked before each request; a 200 returns
`True`; a 503 logs the loading transition once and resets `start_time` to
the clock value just after the request; any other status or a
`RequestException` is ignored; any other exception propagates
(`.error`). -/
def waitForServerReadyFrom (timeout : Nat) : WaitState → List PollStep →
    Option (Except Nat WaitRun)
  | st, steps =>
    if timeout ≤ st.now - st.startTime then
      some (.ok ⟨false, st.now, 0, 0⟩)
    else
      match steps with
      | [] => none
      | step :: rest =>
        match step.exitCode with
        | some _ => some (.ok ⟨false, st.now, 0, 0⟩)
        | none =>
          let now1 := st.now + step.reqTime
          match step.probe with
          | .fatalExc e => some (.error e)
          | .connError =>
            (waitForServerReadyFrom timeout ⟨now1 + 1, st.startTime, st.modelLoading⟩ rest).map
              (bumpRun 1 0)
          | .response code =>
            if code = 200 then some (.ok ⟨true, now1, 1, 0⟩)
            else if code = 503 then
              (waitForServerReadyFrom timeout ⟨now1 + 1, now1, true⟩ rest).map
                (bumpRun 1 (if st.modelLoading then 0 else 1))
            else
              (waitForServerReadyFrom timeout ⟨now1 + 1, st.startTime, st.modelLoading⟩ rest).map
                (bumpRun 1 0)

/-- `wait_for_server_ready(url, timeout)` started at clock 0:
`start_time = time.monotonic()`, `model_loading = False`. -/
def waitForServerReady (timeout : Nat) (steps : List PollStep) :
    Option (Except Nat WaitRun) :=
  waitForServerReadyFrom timeout ⟨0, 0, false⟩ steps

/-! ## Process lifecycle (`server/sync.py`, `start` / `stop`) -/

/-- How the supervised process reacts to `stop()`: it terminates within the
grace period, it ignores `terminate()` until killed, or it has already
exited and `terminate()` raises `ProcessLookupError`. -/
inductive StopBehavior where
  | graceful : StopBehavior
  | needsKill : StopBehavior
  | alreadyExited : StopBehavior
  deriving Repr, DecidableEq

/-- The owned `subprocess.Popen` handle, abstracted to its reaction to the
stop sequence. -/
structure ProcHandle where
  stopBehavior : StopBehavior
  deriving Repr, DecidableEq

/-- The supervisor attribute `self.process` (`None` before `start()` and
after `stop()`). -/
structure ServerState where
  process : Option ProcHandle
  deriving Repr, DecidableEq

/-- The Python exceptions arising inside `stop()`:
`subprocess.TimeoutExpired` from `wait(timeout=...)` and
`ProcessLookupError` from terminating an already-exited process. -/
inductive PyExc where
  | timeoutExpired : PyExc
  | lookupError : PyExc
  deriving Repr, DecidableEq

/-- The log lines `stop()` can print. -/
inductive StopLog where
  | stoppedCorrectly : StopLog
  | killedAfterTimeout : StopLog
  | alreadyTerminated : StopLog
  | serverStopped : StopLog
  deriving Repr, DecidableEq

/-- The `try` body of `stop()`: `terminate()` then
`wait(timeout=self.timeout_to_stop_process)`. -/
def stopTryBody : StopBehavior → Except PyExc (List StopLog)
  | .graceful => .ok [.stoppedCorrectly]
  | .needsKill => .error .timeoutExpired
  | .alreadyExited => .error .lookupError

/-- `LlamaSyncServer.stop`: returns immediately when no process is owned;
otherwise runs the terminate/wait sequence, catching `TimeoutExpired`
(kill and wait) and `ProcessLookupError` (already terminated), then clears
`self.process`.  An uncaught exception would surface as `.error`. -/
def stop (s : ServerState) : Except PyExc (List StopLog × ServerState) :=
  match s.process with
  | none => .ok ([], s)
  | some p =>
    let caught : Except PyExc (List StopLog) :=
      match stopTryBody p.stopBehavior with
      | .ok logs => .ok logs
      | .error .timeoutExpired => .ok [.killedAfterTimeout]
      | .error .lookupError => .ok [.alreadyTerminated]
    match caught with
    | .ok logs => .ok (logs ++ [.serverStopped], ⟨none⟩)
    | .error e => .error e

/-- The error `start()` can raise: the `TimeoutError('Server did not start
within the allotted time')` it builds itself, an exception propagated out
of `wait_for_server_ready`, or an exception escaping an internal `stop()`
call. -/
inductive StartExn where
  | timeoutError : StartExn
  | propagated (e : Nat) : StartExn
  | stopRaised (e : PyExc) : StartExn
  deriving Repr, DecidableEq

/-- `LlamaSyncServer.start` with `wait_for_ready` behaviour: assigns
`self.process`, optionally waits for readiness, and on a not-ready result
calls `stop()` and raises `TimeoutError` — a raise that the enclosing
`except Exception` clause catches, calling `stop()` a second time before
re-raising.  An exception out of the wait is caught once by that clause
(`stop()` then re-raise).  `none` is an underdetermined readiness
script. -/
def start (waitForReady : Bool) (newProc : ProcHandle) (timeout : Nat)
    (script : List PollStep) (_s : ServerState) :
    Option (Except StartExn Unit × ServerState) :=
  let s1 : ServerState := ⟨some newProc⟩
  if !waitForReady then some (.ok (), s1)
  else
    match waitForServerReady timeout script with
    | none => none
    | some (.error e) =>
      match stop s1 with
      | .ok (_, s2) => some (.error (.propagated e), s2)
      | .error pe => some (.error (.stopRaised pe), s1)
    | some (.ok run) =>
      if run.ready then some (.ok (), s1)
      else
        match stop s1 with
        | .ok (_, s2) =>
          match stop s2 with
          | .ok (_, s3) => some (.error .timeoutError, s3)
          | .error pe => some (.error (.stopRaised pe), s2)
        | .error pe =>
          match stop s1 with
          | .ok (_, s2) => some (.error (.stopRaised pe), s2)
          | .error _ => some (.error (.stopRaised pe), s1)

/-! ## Helper lemmas -/

/-- Spec-side concatenation of a token list. -/
def concatAll : List String → String
  | [] => ""
  | t :: ts => t ++ concatAll ts

/-- Appending a non-empty string yields a non-empty string. -/
theorem append_ne_empty (acc t : String) (h : t ≠ "") : acc ++ t ≠ "" := by
  intro hc
  apply h
  have hd := congrArg String.data hc
  rw [String.data_append] at hd
  exact String.ext (List.append_eq_nil.mp hd).2

/-- Value and state of the processor in show/accumulate mode. -/
theorem processOutputToken_show_accum (t : String) (st : TokenState) (ph : String) :
    processOutputToken t st true false ph
      = (some (st.response_text ++ t), { st with response_text := st.response_text ++ t }) := by
  simp [processOutputToken]

/-- Value and state of the processor on an opening tag with thinking
hidden. -/
theorem processOutputToken_hidden_opening {t : String} (ht : t ∈ openingThinkingTags)
    (st : TokenState) (rp : Bool) (ph : String) :
    processOutputToken t st false rp ph
      = ((if ph ≠ "" then some ph else none), { st with is_in_thinking := true }) := by
  by_cases hph : ph ≠ "" <;> simp [processOutputToken, ht, hph]

/-- Value and state of the processor on a closing tag with thinking
hidden. -/
theorem processOutputToken_hidden_closing {t : String} (hno : t ∉ openingThinkingTags)
    (ht : t ∈ closingThinkingTags) (st : TokenState) (rp : Bool) (ph : String) :
    processOutputToken t st false rp ph = (none, { st with is_in_thinking := false }) := by
  simp [processOutputToken, hno, ht]

/-- Value and state of the processor on an ordinary token with thinking
hidden, outside a thinking block. -/
theorem processOutputToken_hidden_plain_normal {t : String} (h1 : t ∉ openingThinkingTags)
    (h2 : t ∉ closingThinkingTags) {st : TokenState} (hfl : st.is_in_thinking = false)
    (rp : Bool) (ph : String) :
    processOutputToken t st false rp ph
      = if rp then (some t, st)
        else (some (st.response_text ++ t), { st with response_text := st.response_text ++ t }) := by
  cases rp <;> simp [processOutputToken, h1, h2, hfl]

/-- Value and state of the processor on an ordinary token with thinking
hidden, inside a thinking block. -/
theorem processOutputToken_hidden_inside {t : String} (h1 : t ∉ openingThinkingTags)
    (h2 : t ∉ closingThinkingTags) {st : TokenState} (hfl : st.is_in_thinking = true)
    (rp : Bool) (ph : String) :
    processOutputToken t st false rp ph = (none, st) := by
  simp [processOutputToken, h1, h2, hfl]

/-- In accumulate mode with thinking shown, the emitted chunks from any
state are the running totals, provided no token is empty. -/
theorem streamEmittedFrom_accum_show (ph : String) :
    ∀ (ts : List String) (st : TokenState), (∀ t ∈ ts, t ≠ "") →
      streamEmittedFrom st true false ph ts = runningConcatsFrom st.response_text ts := by
  intro ts
  induction ts with
  | nil => intro st _; rfl
  | cons t ts ih =>
    intro st h
    have ht : t ≠ "" := h t (List.mem_cons_self t ts)
    have hne : st.response_text ++ t ≠ "" := append_ne_empty _ _ ht
    have hrest : ∀ u ∈ ts, u ≠ "" := fun u hu => h u (List.mem_cons_of_mem t hu)
    simp only [streamEmittedFrom, processOutputToken_show_accum, runningConcatsFrom]
    rw [if_pos hne]
    exact congrArg _ (ih _ hrest)

/-- The state evolution of the thinking-hidden accumulate mode: the
accumulated text extends by exactly the spec-side kept tokens. -/
theorem streamFinalState_hidden_accum (ph : String) :
    ∀ (ts : List String) (st : TokenState),
      (streamFinalState st false false ph ts).response_text
        = st.response_text ++ concatAll (keptTokens st.is_in_thinking ts) := by
  intro ts
  induction ts with
  | nil => intro st; simp [streamFinalState, keptTokens, concatAll]
  | cons t ts ih =>
    intro st
    by_cases h1 : t ∈ openingThinkingTags
    · simp only [streamFinalState, processOutputToken_hidden_opening h1, keptTokens, if_pos h1]
      simpa using ih { st with is_in_thinking := true }
    · by_cases h2 : t ∈ closingThinkingTags
      · simp only [streamFinalState, processOutputToken_hidden_closing h1 h2, keptTokens,
          if_neg h1, if_pos h2]
        simpa using ih { st with is_in_thinking := false }
      · rcases hfl : st.is_in_thinking with _ | _
        · simp only [streamFinalState, processOutputToken_hidden_plain_normal h1 h2 hfl,
            if_neg h1, if_neg h2, hfl, keptTokens, Bool.false_eq_true, if_false]
          have h3 := ih { response_text := st.response_text ++ t, is_in_thinking := false }
          simp only [concatAll] at h3 ⊢
          rw [h3, String.append_assoc]
        · simp only [streamFinalState, processOutputToken_hidden_inside h1 h2 hfl,
            if_neg h1, if_neg h2, hfl, keptTokens]
          simpa [hfl] using ih st

/-- Kept tokens are never tag tokens. -/
theorem keptTokens_not_tag :
    ∀ (ts : List String) (b : Bool) (t : String), t ∈ keptTokens b ts → t ∉ allThinkingTags := by
  intro ts
  induction ts with
  | nil => intro b t ht; simp [keptTokens] at ht
  | cons u ts ih =>
    intro b t ht
    by_cases h1 : u ∈ openingThinkingTags
    · exact ih true t (by simpa [keptTokens, h1] using ht)
    · by_cases h2 : u ∈ closingThinkingTags
      · exact ih false t (by simpa [keptTokens, h1, h2] using ht)
      · rcases b with _ | _
        · simp only [keptTokens, if_neg h1, if_neg h2, if_neg Bool.false_ne_true,
            List.mem_cons] at ht
          rcases ht with h | h
          · subst h
            simp only [allThinkingTags, List.mem_append]
            rintro (hc | hc)
            · exact h1 hc
            · exact h2 hc
          · exact ih false t h
        · exact ih true t (by simpa [keptTokens, h1, h2] using ht)

/-- `stop()` never raises and always leaves the supervisor process-free. -/
theorem stop_ok : ∀ s : ServerState, ∃ logs, stop s = .ok (logs, ⟨none⟩) := by
  rintro ⟨_ | ⟨⟨b⟩⟩⟩
  · exact ⟨[], rfl⟩
  · cases b
    · exact ⟨[.stoppedCorrectly, .serverStopped], rfl⟩
    · exact ⟨[.killedAfterTimeout, .serverStopped], rfl⟩
    · exact ⟨[.alreadyTerminated, .serverStopped], rfl⟩

/-! ## Claim theorems -/

/-- C1: fed token-by-token through the post-processor exactly as the
`stream` loop does, the sequence
`["Hello", "<think>", "secret", "</think>", " world"]` with
`show_thinking=false`, `return_per_token=true` and placeholder
`"Thinking ..."` emits exactly `["Hello", "Thinking ...", " world"]`, and
with `show_thinking=true` it emits all five tokens unchanged, tags
included. -/
theorem C1_thinking_roundtrip :
    streamEmitted ["Hello", "<think>", "secret", "</think>", " world"] false true "Thinking ..."
      = ["Hello", "Thinking ...", " world"]
    ∧ streamEmitted ["Hello", "<think>", "secret", "</think>", " world"] true true "Thinking ..."
      = ["Hello", "<think>", "secret", "</think>", " world"] := by
  exact ⟨by decide, by decide⟩

/-- C4 counterexample: with `show_thinking=false`, a closing tag arriving in
the Normal state is not emitted like an ordinary non-tag token: the
processor returns nothing for it, while an ordinary token is returned
as-is. -/
theorem C4_counterexample :
    (processOutputToken "</think>" ⟨"", false⟩ false true "Thinking ...").1 ≠ some "</think>"
    ∧ (processOutputToken "world" ⟨"", false⟩ false true "Thinking ...").1 = some "world" := by
  exact ⟨by decide, by decide⟩

/-- C4 (amended): with `show_thinking=false`, a closing tag arriving while
the state is Normal re-assigns the in-thinking flag to False — a no-op on
the state — and the token itself is suppressed: nothing is emitted. -/
theorem C4_closing_tag_in_normal (s : TokenState) (rp : Bool) (ph tag : String)
    (htag : tag ∈ closingThinkingTags) (hs : s.is_in_thinking = false) :
    processOutputToken tag s false rp ph = (none, s) := by
  obtain ⟨rt, fl⟩ := s
  simp only at hs
  subst hs
  have hopen : tag ∉ openingThinkingTags := by
    simp only [closingThinkingTags, List.mem_cons, List.not_mem_nil, or_false] at htag
    rcases htag with h | h <;> subst h <;> decide
  simp [processOutputToken, hopen, htag]

/-- C4 witness: the amended behaviour at the literal closing tag in the
initial state. -/
theorem C4_witness :
    ("</think>" ∈ closingThinkingTags ∧ (⟨"", false⟩ : TokenState).is_in_thinking = false)
    ∧ processOutputToken "</think>" ⟨"", false⟩ false true "Thinking ..." = (none, ⟨"", false⟩) :=
  ⟨⟨by decide, rfl⟩,
    C4_closing_tag_in_normal ⟨"", false⟩ true "Thinking ..." "</think>" (by decide) rfl⟩

/-- C8 counterexample: feeding the one-token sequence `[""]` in accumulate
mode with thinking shown emits nothing at all — not the one running total
`[""]` the claim predicts for every input sequence. -/
theorem C8_counterexample :
    streamEmitted [""] true false "Thinking ..." ≠ runningConcats [""] := by decide

/-- C8 (amended): in accumulate mode with thinking shown, for every token
sequence containing no empty token the i-th emission is the concatenation
of the first i tokens (each superseding the previous); an empty token
contributes an emission only when the total accumulated so far is
non-empty, since the loop yields only truthy values. -/
theorem C8_accumulate_running_totals (ph : String) (tokens : List String)
    (h : ∀ t ∈ tokens, t ≠ "") :
    streamEmitted tokens true false ph = runningConcats tokens :=
  streamEmittedFrom_accum_show ph tokens ⟨"", false⟩ h

/-- C8 witness: the spec's own example `["A","B","C"]` yields
`["A","AB","ABC"]`. -/
theorem C8_witness :
    (∀ t ∈ (["A", "B", "C"] : List String), t ≠ "")
    ∧ streamEmitted ["A", "B", "C"] true false "Thinking ..." = runningConcats ["A", "B", "C"] :=
  ⟨by decide, C8_accumulate_running_totals "Thinking ..." ["A", "B", "C"] (by decide)⟩

/-- C10: with thinking hidden in accumulate mode, after any token sequence
the accumulated response text is exactly the concatenation of the non-tag
tokens that arrived while the in-thinking flag was down — so no tag token,
no token received inside a thinking block and no placeholder emission is
ever part of it — and on an opening tag the processor returns the bare
placeholder (when truthy) while leaving the running total unchanged. -/
theorem C10_hidden_accumulate_invariant (tokens : List String) (ph : String) :
    (streamFinalState ⟨"", false⟩ false false ph tokens).response_text
        = concatAll (keptTokens false tokens)
    ∧ (∀ t ∈ keptTokens false tokens, t ∉ allThinkingTags)
    ∧ (∀ s : TokenState,
        (processOutputToken "<think>" s false false ph).2.response_text = s.response_text
        ∧ (processOutputToken "&lt;think&gt;" s false false ph).2.response_text = s.response_text
        ∧ (processOutputToken "<think>" s false false ph).1
            = if ph ≠ "" then some ph else none) := by
  refine ⟨?_, fun t ht => keptTokens_not_tag tokens false t ht, fun s => ⟨?_, ?_, ?_⟩⟩
  · simpa using streamFinalState_hidden_accum ph tokens ⟨"", false⟩
  · by_cases hph : ph ≠ "" <;> simp [processOutputToken, openingThinkingTags, hph]
  · by_cases hph : ph ≠ "" <;> simp [processOutputToken, openingThinkingTags, hph]
  · by_cases hph : ph ≠ "" <;> simp [processOutputToken, openingThinkingTags, hph]

/-- C10 witness: a concrete hidden-thinking run in which the surviving token
is kept and is not a tag. -/
theorem C10_witness :
    (streamFinalState ⟨"", false⟩ false false "Thinking ..."
        ["<think>", "x", "</think>", "y"]).response_text
      = concatAll (keptTokens false ["<think>", "x", "</think>", "y"])
    ∧ "y" ∉ allThinkingTags :=
  ⟨(C10_hidden_accumulate_invariant ["<think>", "x", "</think>", "y"] "Thinking ...").1,
    (C10_hidden_accumulate_invariant ["<think>", "x", "</think>", "y"] "Thinking ...").2.1
      "y" (by decide)⟩

/-- The relay run decomposes into the per-chunk prints followed by the
close-time flush. -/
theorem logOutputFrom_decomp (logPre : String) :
    ∀ (bytes : List Nat) (st : LogState),
      logOutputFrom st logPre bytes
        = logChunkEvents st logPre bytes
          ++ (if (logFinalState st logPre bytes).last_was_cr then [LogEvent.newline] else []) := by
  intro bytes
  induction bytes with
  | nil => intro st; simp [logOutputFrom, logChunkEvents, logFinalState]
  | cons b bs ih =>
    intro st
    simp only [logOutputFrom, logChunkEvents, logFinalState, ih, List.append_assoc]

/-- C7: feeding the relay the bytes of `b"50%\r100%\r\n"` one at a time
prints exactly the in-place update `50%`, the in-place update `100%`
overwriting it, and one finalising newline — no duplicate blank lines; and
on any stream, the zero-length read at close adds a final newline exactly
when the last print was an in-place update, and nothing otherwise. -/
theorem C7_progress_relay :
    logOutput [53, 48, 37, 13, 49, 48, 48, 37, 13, 10] ""
      = [.inplaceUpdate "50%", .inplaceUpdate "100%", .newline]
    ∧ ∀ (bytes : List Nat) (logPre : String),
        logOutput bytes logPre
          = logChunkEvents ⟨[], false⟩ logPre bytes
            ++ (if (logFinalState ⟨[], false⟩ logPre bytes).last_was_cr
                then [LogEvent.newline] else []) :=
  ⟨by decide, fun bytes logPre => logOutputFrom_decomp logPre bytes ⟨[], false⟩⟩

/-- C9: relay chunk processing is a total function of the byte and state;
when the accumulated buffer fails to decode at a flush point (`\r` or
`\n`), the failure is swallowed: nothing is printed, the buffer is
discarded, and the in-place flag is left untouched, so processing simply
continues with the next chunk. -/
theorem C9_decode_error_swallowed (st : LogState) (logPre : String) (chunk : Nat)
    (hdec : utf8Decode st.buffer = none) (hflush : chunk = 13 ∨ chunk = 10) :
    processLogOutputChunk chunk st logPre
      = ({ buffer := [], last_was_cr := st.last_was_cr }, []) := by
  have hds : decodeStrip st.buffer = none := by simp [decodeStrip, hdec]
  rcases hflush with h | h <;> subst h <;> simp [processLogOutputChunk, hds]

/-- C9 witness: the invalid byte 0xFF in the buffer at a carriage-return
flush is swallowed. -/
theorem C9_witness :
    (utf8Decode [255] = none ∧ ((13 : Nat) = 13 ∨ (13 : Nat) = 10))
    ∧ processLogOutputChunk 13 ⟨[255], true⟩ "" = (⟨[], true⟩, []) :=
  ⟨⟨by decide, Or.inl rfl⟩, C9_decode_error_swallowed ⟨[255], true⟩ "" 13 (by decide) (Or.inl rfl)⟩

/-- From any in-budget state, a script of 503 responses followed by one 200
reaches ready: every 503 iteration resets `start_time`, so each later guard
sees an elapsed time of exactly the one-second sleep. -/
theorem wait_503_then_200 (timeout : Nat) (h2 : 2 ≤ timeout) (d200 : Nat) :
    ∀ (ds : List Nat) (st : WaitState), st.now - st.startTime < timeout →
      waitForServerReadyFrom timeout st
          ((ds.map fun d => (⟨none, .response 503, d⟩ : PollStep)) ++ [⟨none, .response 200, d200⟩])
        = some (.ok ⟨true, st.now + ds.sum + ds.length + d200, ds.length + 1,
            if st.modelLoading then 0 else if ds.length = 0 then 0 else 1⟩) := by
  intro ds
  induction ds with
  | nil =>
    intro st hst
    have hne : ¬ timeout ≤ st.now - st.startTime := Nat.not_le.mpr hst
    simp [waitForServerReadyFrom, hne]
  | cons d ds ih =>
    intro st hst
    have hne : ¬ timeout ≤ st.now - st.startTime := Nat.not_le.mpr hst
    have hg : (st.now + d + 1) - (st.now + d) < timeout := by omega
    have hrec := ih ⟨st.now + d + 1, st.now + d, true⟩ hg
    simp only [] at hrec
    rcases hml : st.modelLoading with _ | _ <;>
      simp [waitForServerReadyFrom, hne, bumpRun, hrec, WaitRun.mk.injEq, hml] <;>
      omega

/-- C2: every readiness script made of 503 responses followed by one 200
succeeds, however long the 503 phase lasts and whatever the requests cost:
each 503 resets `start_time` to the current clock so the elapsed budget
restarts, the loading transition is logged exactly once (when the phase is
non-empty), and the final clock grows with the number of 503 polls, so the
wall time can exceed the timeout.  Moreover only a 503 resets the budget:
an iteration seeing any other non-200 status or a connection error leaves
`start_time` and the loading flag untouched. -/
theorem C2_503_resets_budget (timeout d200 : Nat) (ds : List Nat) (h2 : 2 ≤ timeout) :
    (waitForServerReady timeout
        ((ds.map fun d => (⟨none, .response 503, d⟩ : PollStep)) ++ [⟨none, .response 200, d200⟩])
      = some (.ok ⟨true, ds.sum + ds.length + d200, ds.length + 1,
          if ds.length = 0 then 0 else 1⟩))
    ∧ (∀ (st : WaitState) (d code : Nat) (rest : List PollStep),
        st.now - st.startTime < timeout → code ≠ 200 → code ≠ 503 →
        waitForServerReadyFrom timeout st (⟨none, .response code, d⟩ :: rest)
          = (waitForServerReadyFrom timeout ⟨st.now + d + 1, st.startTime, st.modelLoading⟩
              rest).map (bumpRun 1 0))
    ∧ (∀ (st : WaitState) (d : Nat) (rest : List PollStep),
        st.now - st.startTime < timeout →
        waitForServerReadyFrom timeout st (⟨none, .connError, d⟩ :: rest)
          = (waitForServerReadyFrom timeout ⟨st.now + d + 1, st.startTime, st.modelLoading⟩
              rest).map (bumpRun 1 0))
    ∧ (∀ (st : WaitState) (d : Nat) (rest : List PollStep),
        st.now - st.startTime < timeout →
        waitForServerReadyFrom timeout st (⟨none, .response 503, d⟩ :: rest)
          = (waitForServerReadyFrom timeout ⟨st.now + d + 1, st.now + d, true⟩ rest).map
              (bumpRun 1 (if st.modelLoading then 0 else 1))) := by
  refine ⟨?_, ?_, ?_, ?_⟩
  · have h := wait_503_then_200 timeout h2 d200 ds ⟨0, 0, false⟩
      (by show (0 : Nat) - 0 < timeout; omega)
    simpa [waitForServerReady] using h
  · intro st d code rest hst hc200 hc503
    have hne : ¬ timeout ≤ st.now - st.startTime := Nat.not_le.mpr hst
    simp [waitForServerReadyFrom, hne, hc200, hc503]
  · intro st d rest hst
    have hne : ¬ timeout ≤ st.now - st.startTime := Nat.not_le.mpr hst
    simp [waitForServerReadyFrom, hne]
  · intro st d rest hst
    have hne : ¬ timeout ≤ st.now - st.startTime := Nat.not_le.mpr hst
    simp [waitForServerReadyFrom, hne]

/-- C2 witness: two 503 polls then a 200 succeed, with one loading log and
a final clock of 8. -/
theorem C2_witness :
    ((2 : Nat) ≤ 60)
    ∧ waitForServerReady 60
        ((([0, 5] : List Nat).map fun d => (⟨none, .response 503, d⟩ : PollStep))
          ++ [⟨none, .response 200, 1⟩])
      = some (.ok ⟨true, 8, 3, 1⟩) :=
  ⟨by decide, (C2_503_resets_budget 60 1 [0, 5] (by decide)).1⟩

/-- From any state whose clock can still absorb the remaining polls, a
script of failed connections followed by a process exit returns not-ready
at the exit check, having issued one request per earlier iteration and
none at or after the exit, whatever the rest of the script holds. -/
theorem wait_exit_failfast (timeout : Nat) (c : Int) (rest : List PollStep) :
    ∀ (n : Nat) (st : WaitState), st.now + n - st.startTime < timeout →
      waitForServerReadyFrom timeout st
          (List.replicate n ⟨none, .connError, 0⟩ ++ ⟨some c, .connError, 0⟩ :: rest)
        = some (.ok ⟨false, st.now + n, n, 0⟩) := by
  intro n
  induction n with
  | zero =>
    intro st hst
    have hne : ¬ timeout ≤ st.now - st.startTime := Nat.not_le.mpr (by omega)
    simp [waitForServerReadyFrom, hne]
  | succ n ih =>
    intro st hst
    have hne : ¬ timeout ≤ st.now - st.startTime := Nat.not_le.mpr (by omega)
    have hrec := ih ⟨st.now + 1, st.startTime, st.modelLoading⟩
      (by show st.now + 1 + n - st.startTime < timeout; omega)
    simp [List.replicate_succ, waitForServerReadyFrom, hne, bumpRun, hrec,
      WaitRun.mk.injEq]
    omega

/-- C3 counterexample: the failure produced when the process exits before
any 200 carries no exit code and is indistinguishable from a plain
timeout — exit codes 1 and 2 yield identical results, the result equals
that of a pure timeout run, and `start()` surfaces the very same
`TimeoutError` it uses for a timeout, not a `ProcessExitedError`. -/
theorem C3_counterexample :
    waitForServerReady 60 [⟨some 1, .connError, 0⟩]
      = waitForServerReady 60 [⟨some 2, .connError, 0⟩]
    ∧ waitForServerReady 60 [⟨some 1, .connError, 0⟩] = waitForServerReady 0 []
    ∧ start true ⟨.graceful⟩ 60 [⟨some 1, .connError, 0⟩] ⟨none⟩
      = some (.error .timeoutError, ⟨none⟩) :=
  ⟨rfl, rfl, rfl⟩

/-- C3 (amended): when the process exit code becomes non-null before any
200 response, the readiness wait fails at once: the iteration that
observes the exit issues no poll, nothing after it in the script is ever
consulted, and no further time elapses (the remaining budget is not waited
out); the failure is returned as a bare not-ready, which `start()`
surfaces as its generic `TimeoutError`. -/
theorem C3_exit_failfast (timeout n : Nat) (c : Int) (rest : List PollStep)
    (h : n < timeout) :
    waitForServerReady timeout
        (List.replicate n ⟨none, .connError, 0⟩ ++ ⟨some c, .connError, 0⟩ :: rest)
      = some (.ok ⟨false, n, n, 0⟩)
    ∧ start true ⟨.graceful⟩ timeout
        (List.replicate n ⟨none, .connError, 0⟩ ++ ⟨some c, .connError, 0⟩ :: rest) ⟨none⟩
      = some (.error .timeoutError, ⟨none⟩) := by
  have hw := wait_exit_failfast timeout c rest n ⟨0, 0, false⟩
    (by show (0 : Nat) + n - 0 < timeout; omega)
  have hw0 : waitForServerReady timeout
      (List.replicate n ⟨none, .connError, 0⟩ ++ ⟨some c, .connError, 0⟩ :: rest)
      = some (.ok ⟨false, n, n, 0⟩) := by
    simpa [waitForServerReady] using hw
  refine ⟨hw0, ?_⟩
  simp [start, hw0, stop, stopTryBody]

/-- C3 witness: three dead connections, then the process exit is seen. -/
theorem C3_witness :
    ((3 : Nat) < 60)
    ∧ waitForServerReady 60
        (List.replicate 3 ⟨none, .connError, 0⟩ ++ ⟨some 7, .connError, 0⟩ :: [])
      = some (.ok ⟨false, 3, 3, 0⟩) :=
  ⟨by decide, (C3_exit_failfast 60 3 7 [] (by decide)).1⟩

/-- C5: `stop()` never raises and always clears the handle; on a
supervisor that owns no process (never started, or already stopped) it is
a silent no-op, so two calls in a row both succeed; and a process that has
already exited when `stop()` is called is treated as success (logged,
handle cleared), not as an error. -/
theorem C5_stop_idempotent :
    (∀ s : ServerState, ∃ logs, stop s = .ok (logs, ⟨none⟩))
    ∧ stop ⟨none⟩ = .ok ([], ⟨none⟩)
    ∧ (∀ s : ServerState, (stop s).bind (fun r => stop r.2) = .ok ([], ⟨none⟩))
    ∧ stop ⟨some ⟨.alreadyExited⟩⟩ = .ok ([.alreadyTerminated, .serverStopped], ⟨none⟩) := by
  refine ⟨stop_ok, rfl, ?_, rfl⟩
  intro s
  obtain ⟨logs, h⟩ := stop_ok s
  rw [h]
  rfl

/-- C6: whenever `start()` (waiting for readiness) fails, it has run
`stop()` before raising, so the supervisor owns no process afterwards. -/
theorem C6_failed_start_is_process_free (p : ProcHandle) (timeout : Nat)
    (script : List PollStep) (s : ServerState) (e : StartExn) (s2 : ServerState)
    (h : start true p timeout script s = some (.error e, s2)) :
    s2.process = none := by
  obtain ⟨l1, h1⟩ := stop_ok ⟨some p⟩
  obtain ⟨l2, h2⟩ := stop_ok (⟨none⟩ : ServerState)
  unfold start at h
  rcases hw : waitForServerReady timeout script with _ | er
  · rw [hw] at h
    simp at h
  · rcases er with e0 | run
    · rw [hw] at h
      simp only [Bool.not_true, if_false, h1] at h
      obtain ⟨-, h⟩ := Prod.mk.injEq .. ▸ Option.some.injEq .. ▸ h
      exact h ▸ rfl
    · rw [hw] at h
      rcases hr : run.ready with _ | _
      · simp only [Bool.not_true, if_false, hr, h1, h2] at h
        obtain ⟨-, h⟩ := Prod.mk.injEq .. ▸ Option.some.injEq .. ▸ h
        exact h ▸ rfl
      · simp [hr] at h

/-- C6 witness: a start whose process dies at once fails with the
supervisor process-free. -/
theorem C6_witness :
    start true ⟨.graceful⟩ 60 [⟨some 1, .connError, 0⟩] ⟨none⟩
      = some (.error .timeoutError, ⟨none⟩)
    ∧ (⟨none⟩ : ServerState).process = none :=
  ⟨rfl, C6_failed_start_is_process_free ⟨.graceful⟩ 60 [⟨some 1, .connError, 0⟩]
    ⟨none⟩ .timeoutError ⟨none⟩ rfl⟩

end LlamaCppPy
